import Mathlib

/-!
Shallow embedding of the tenant-scoped data store (`src/database/db_manager.py`)
and the ingestion pipeline (`src/src/scraping/industry/crawler.py`).

Modelling conventions:
* SQL `TIMESTAMP DEFAULT CURRENT_TIMESTAMP` values are natural numbers supplied
  by the caller as an explicit `now : Nat` argument (wall-clock time is an input,
  not store state).
* `AUTOINCREMENT` row ids are per-table counters in the store state, starting at 1.
* The `tags` TEXT column holds either SQL NULL (modelled `none`; an empty string
  behaves identically everywhere it is inspected) or a serialized blob, classified
  by `TagBlob`: a JSON array of strings, valid JSON that is not an array, or
  text that `json.loads` rejects.
* Tables are lists of rows in insertion order; every insert stamps `created_at`
  from the caller-supplied clock, so under the strict-monotonicity hypothesis used
  in the ordering theorems, `ORDER BY created_at DESC` coincides with reversed
  insertion order, which is how `order_newest_first` renders it.
* Python exceptions that can escape a statement are modelled with `Except`;
  a `try/except` in the source becomes a `match` on the `Except` value.
-/

/-- Classification of a non-NULL serialized tag collection as seen by
`json.loads`: a JSON array of strings, valid JSON that is not an array
(carrying its rendering), or unparsable text. -/
inductive TagBlob where
  | arr (l : List String)
  | nonArray (s : String)
  | malformed (s : String)
deriving DecidableEq

/-- Result of a successful `json.loads` on a tag blob. -/
inductive JsonVal where
  | listVal (l : List String)
  | otherVal (s : String)
deriving DecidableEq

/-- The outcome of `json.loads` on a stored blob: `.error` models
`json.JSONDecodeError`. -/
def json_loads : TagBlob → Except String JsonVal
  | .arr l => .ok (.listVal l)
  | .nonArray s => .ok (.otherVal s)
  | .malformed s => .error s

/-- `DatabaseManager._json_array_contains`: `if not json_array: return False`;
then `json.loads` under `try/except JSONDecodeError: return False`; then
`value in array if isinstance(array, list) else False`. -/
def json_array_contains (json_array : Option TagBlob) (value : String) : Bool :=
  match json_array with
  | none => false
  | some blob =>
    match json_loads blob with
    | .ok (.listVal l) => decide (value ∈ l)
    | .ok (.otherVal _) => false
    | .error _ => false

/-- A row of the `clients` table. `campaign_parameters` is the opaque JSON text
stored by `json.dumps` and returned verbatim after the `json.loads` round-trip. -/
structure Client where
  telegram_handle : String
  email : String
  industry : String
  location : String
  campaign_parameters : String
  created_at : Nat
deriving DecidableEq

/-- A row of the `industry_data` table. -/
structure IndustryRow where
  id : Nat
  source : String
  title : Option String
  content : String
  pain_points : String
  tags : Option TagBlob
  crawled_at : Option String
  created_at : Nat
deriving DecidableEq

/-- A row of the `lead_bucket` table. -/
structure Lead where
  id : Nat
  company_name : String
  website : String
  contact_info : String
  details : String
  created_at : Nat
deriving DecidableEq

/-- A row of the `tailored_solutions` table. -/
structure Solution where
  id : Nat
  lead_id : Nat
  solution_text : String
  generated_at : Nat
  status : String
deriving DecidableEq

/-- A row of the `outreach_log` table. -/
structure OutreachRow where
  id : Nat
  lead_id : Nat
  message_sent : String
  sent_at : Nat
  response : Option String
  updated_at : Option Nat
deriving DecidableEq

/-- One tenant's database file: the five tables plus the AUTOINCREMENT counters. -/
structure Store where
  clients : List Client
  industry : List IndustryRow
  leads : List Lead
  solutions : List Solution
  outreach : List OutreachRow
  next_industry_id : Nat
  next_lead_id : Nat
  next_solution_id : Nat
  next_outreach_id : Nat
deriving DecidableEq

/-- The state `_init_database` leaves a fresh database file in: all tables empty,
rowids starting at 1. -/
def emptyStore : Store :=
  { clients := [], industry := [], leads := [], solutions := [], outreach := []
  , next_industry_id := 1, next_lead_id := 1, next_solution_id := 1, next_outreach_id := 1 }

/-- `DatabaseManager.create_client`: INSERT into `clients`; the PRIMARY KEY on
`telegram_handle` raises `sqlite3.IntegrityError` on a duplicate, caught and
turned into `False`. -/
def create_client (now : Nat) (telegram_handle email industry location : String)
    (campaign_parameters : String) (st : Store) : Bool × Store :=
  if st.clients.any (fun c => c.telegram_handle = telegram_handle) then
    (false, st)
  else
    (true, { st with clients := st.clients ++
      [{ telegram_handle := telegram_handle, email := email, industry := industry
       , location := location, campaign_parameters := campaign_parameters
       , created_at := now }] })

/-- `DatabaseManager.get_client`: SELECT by `telegram_handle`, `fetchone`. -/
def get_client (telegram_handle : String) (st : Store) : Option Client :=
  st.clients.find? (fun c => c.telegram_handle = telegram_handle)

/-- The value stored in the tags column: `json.dumps(tags) if tags else None`,
i.e. NULL when the list is absent or empty (both falsy), else the serialized
array. -/
def tags_blob (tags : Option (List String)) : Option TagBlob :=
  match tags with
  | some l => if l.isEmpty then none else some (.arr l)
  | none => none

/-- `DatabaseManager.add_industry_data`: INSERT; returns `cursor.lastrowid`. -/
def add_industry_data (now : Nat) (source content pain_points : String)
    (title : Option String) (tags : Option (List String))
    (crawled_at : Option String) (st : Store) : Nat × Store :=
  (st.next_industry_id,
   { st with
     industry := st.industry ++
       [{ id := st.next_industry_id, source := source, title := title
        , content := content, pain_points := pain_points, tags := tags_blob tags
        , crawled_at := crawled_at, created_at := now }]
     next_industry_id := st.next_industry_id + 1 })

/-- `DatabaseManager.add_lead`: INSERT into `lead_bucket`, returns `lastrowid`. -/
def add_lead (now : Nat) (company_name website contact_info details : String)
    (st : Store) : Nat × Store :=
  (st.next_lead_id,
   { st with
     leads := st.leads ++
       [{ id := st.next_lead_id, company_name := company_name, website := website
        , contact_info := contact_info, details := details, created_at := now }]
     next_lead_id := st.next_lead_id + 1 })

/-- `DatabaseManager.add_solution`: INSERT into `tailored_solutions`; `status`
takes its column default `'pending'`. -/
def add_solution (now : Nat) (lead_id : Nat) (solution_text : String)
    (st : Store) : Nat × Store :=
  (st.next_solution_id,
   { st with
     solutions := st.solutions ++
       [{ id := st.next_solution_id, lead_id := lead_id
        , solution_text := solution_text, generated_at := now, status := "pending" }]
     next_solution_id := st.next_solution_id + 1 })

/-- `DatabaseManager.log_outreach`: INSERT into `outreach_log`; `response` and
`updated_at` start NULL. -/
def log_outreach (now : Nat) (lead_id : Nat) (message_sent : String)
    (st : Store) : Nat × Store :=
  (st.next_outreach_id,
   { st with
     outreach := st.outreach ++
       [{ id := st.next_outreach_id, lead_id := lead_id
        , message_sent := message_sent, sent_at := now
        , response := none, updated_at := none }]
     next_outreach_id := st.next_outreach_id + 1 })

/-- `DatabaseManager.update_outreach_response`: a single UPDATE setting
`response = ?` and `updated_at = CURRENT_TIMESTAMP` on every row matching the
id; no existence check, returns `True` (the `sqlite3.Error` handler is
unreachable for this parameterized single statement). -/
def update_outreach_response (now : Nat) (outreach_id : Nat) (response : String)
    (st : Store) : Bool × Store :=
  (true,
   { st with
     outreach := st.outreach.map (fun r =>
       if r.id = outreach_id then
         { r with response := some response, updated_at := some now }
       else r) })

/-- The allow-list of `update_lead`. -/
def valid_fields : List String := ["company_name", "website", "contact_info", "details"]

/-- One `k = ?` assignment of the generated SET clause of `update_lead`;
a key outside the allow-list assigns nothing (it is filtered out before the
clause is built). -/
def set_lead_field (l : Lead) (k v : String) : Lead :=
  if k = "company_name" then { l with company_name := v }
  else if k = "website" then { l with website := v }
  else if k = "contact_info" then { l with contact_info := v }
  else if k = "details" then { l with details := v }
  else l

/-- `DatabaseManager.update_lead`: keep only allow-listed keys; if none remain
return `False`; otherwise UPDATE the matching row with all kept assignments and
return `True` (no existence check). The update mapping is a Python dict, so its
key list is duplicate-free. -/
def update_lead (lead_id : Nat) (updates : List (String × String))
    (st : Store) : Bool × Store :=
  let update_fields := updates.filter (fun kv => kv.1 ∈ valid_fields)
  if update_fields.isEmpty then (false, st)
  else
    (true,
     { st with
       leads := st.leads.map (fun l =>
         if l.id = lead_id then
           update_fields.foldl (fun acc kv => set_lead_field acc kv.1 kv.2) l
         else l) })

/-- The valid statuses of `update_solution_status`. -/
def valid_statuses : List String := ["pending", "sent", "reviewed", "approved", "rejected"]

/-- `DatabaseManager.update_solution_status`: reject a status outside the valid
set with `False`; otherwise UPDATE every row matching the id and return `True`
(no existence check, no transition-graph enforcement). -/
def update_solution_status (solution_id : Nat) (status : String)
    (st : Store) : Bool × Store :=
  if status ∉ valid_statuses then (false, st)
  else
    (true,
     { st with
       solutions := st.solutions.map (fun s =>
         if s.id = solution_id then { s with status := status } else s) })

/-- The `tags` value of a returned row dict after the read-side post-processing:
left NULL, parsed to a list, or parsed to some non-array JSON value. -/
inductive PyTags where
  | null
  | list (l : List String)
  | other (s : String)
deriving DecidableEq

/-- Read-side post-processing of one row's `tags` cell, from the query loops:
`if data['tags']:` skips NULL (and the equally-falsy empty string); otherwise
`data['tags'] = json.loads(data['tags'])` under
`except json.JSONDecodeError: data['tags'] = None`. -/
def load_row_tags (b : Option TagBlob) : Except String PyTags :=
  match b with
  | none => .ok .null
  | some blob =>
    match json_loads blob with
    | .ok (.listVal l) => .ok (.list l)
    | .ok (.otherVal s) => .ok (.other s)
    | .error _ => .ok .null

/-- A returned row dict of `get_industry_data` / `search_industry_data`. -/
structure OutRow where
  id : Nat
  source : String
  title : Option String
  content : String
  pain_points : String
  tags : PyTags
  crawled_at : Option String
  created_at : Nat
deriving DecidableEq

/-- Assemble the returned dict for one row from its post-processed tags. -/
def out_row (r : IndustryRow) (t : PyTags) : OutRow :=
  { id := r.id, source := r.source, title := r.title, content := r.content
  , pain_points := r.pain_points, tags := t, crawled_at := r.crawled_at
  , created_at := r.created_at }

/-- The `results = []; for row in cursor.fetchall(): ...` loop shared by the two
read queries: post-process each row's tags in order; an uncaught exception would
abort the loop and propagate. -/
def collect_rows : List IndustryRow → Except String (List OutRow)
  | [] => .ok []
  | r :: rs =>
    match load_row_tags r.tags with
    | .ok t =>
      match collect_rows rs with
      | .ok out => .ok (out_row r t :: out)
      | .error e => .error e
    | .error e => .error e

/-- `ORDER BY created_at DESC` rendered on the insertion-ordered table; each
insert stamps `created_at` from a caller clock, and under the strict-increase
hypothesis of the ordering theorems descending timestamp order is exactly
reversed insertion order. -/
def order_newest_first (rows : List IndustryRow) : List IndustryRow :=
  rows.reverse

/-- The generated WHERE clause
`json_array_contains(tags, ?) OR ... OR json_array_contains(tags, ?)`,
one disjunct per requested tag. -/
def tag_filter_cond (T : List String) (r : IndustryRow) : Bool :=
  T.any (fun t => json_array_contains r.tags t)

/-- The SELECT of `get_industry_data`: `if tags:` picks the tag-filtered query,
else the unfiltered one; both `ORDER BY created_at DESC LIMIT ?`. The absent
(`None`) and empty tag lists are both falsy and collapse to the same branch. -/
def select_industry (st : Store) (lim : Nat) (T : List String) : List IndustryRow :=
  if T.isEmpty then (order_newest_first st.industry).take lim
  else (order_newest_first (st.industry.filter (tag_filter_cond T))).take lim

/-- `DatabaseManager.get_industry_data`: run the SELECT, then the row
post-processing loop. -/
def get_industry_data (st : Store) (lim : Nat) (T : List String) :
    Except String (List OutRow) :=
  collect_rows (select_industry st lim T)

/-- Case-insensitive substring test on character lists, the meaning of
`column LIKE '%keyword%'` for these all-text columns. -/
def chars_has_sub (hay pat : List Char) : Bool :=
  match hay with
  | [] => pat.isEmpty
  | _ :: t => pat.isPrefixOf hay || chars_has_sub t pat

/-- `column LIKE ?` with pattern `f"%{keyword}%"`. -/
def sql_like (s keyword : String) : Bool :=
  chars_has_sub (s.data.map Char.toLower) (keyword.data.map Char.toLower)

/-- The `(content LIKE ? OR title LIKE ?)` clause; a NULL title makes its
disjunct SQL-NULL, which is falsy. -/
def keyword_cond (keyword : String) (r : IndustryRow) : Bool :=
  sql_like r.content keyword ||
    (match r.title with
     | some t => sql_like t keyword
     | none => false)

/-- The SELECT of `search_industry_data`: keyword clause, ANDed with the tag
clause when `tags` is truthy; `ORDER BY created_at DESC`, no LIMIT. -/
def select_search (st : Store) (keyword : String) (T : List String) :
    List IndustryRow :=
  if T.isEmpty then order_newest_first (st.industry.filter (keyword_cond keyword))
  else
    order_newest_first (st.industry.filter (fun r =>
      tag_filter_cond T r && keyword_cond keyword r))

/-- `DatabaseManager.search_industry_data`: run the SELECT, then the row
post-processing loop. -/
def search_industry_data (st : Store) (keyword : String) (T : List String) :
    Except String (List OutRow) :=
  collect_rows (select_search st keyword T)

/-- The rows `lead_bucket LEFT JOIN tailored_solutions ON lb.id = ts.lead_id`
contributes for one lead: one row per matching solution carrying its status, or
a single row with NULL status when no solution matches. -/
def lead_join_rows (st : Store) (lb : Lead) : List (Lead × Option String) :=
  match st.solutions.filter (fun s => s.lead_id = lb.id) with
  | [] => [(lb, none)]
  | ss => ss.map (fun s => (lb, some s.status))

/-- `DatabaseManager.get_leads`: the left join, an optional
`WHERE ts.status = ?` (which drops NULL-status rows), `ORDER BY lb.created_at
DESC LIMIT ?`. -/
def get_leads (st : Store) (status : Option String) (lim : Nat) :
    List (Lead × Option String) :=
  let rows := st.leads.reverse.flatMap (lead_join_rows st)
  let rows : List (Lead × Option String) :=
    match status with
    | some s => rows.filter (fun p => p.2 = some s)
    | none => rows
  rows.take lim

/-- `DatabaseManager.get_solutions`: optional `lead_id` and `status` filters,
`ORDER BY generated_at DESC`. -/
def get_solutions (st : Store) (lead_id : Option Nat) (status : Option String) :
    List Solution :=
  let rows := st.solutions
  let rows : List Solution :=
    match lead_id with
    | some i => rows.filter (fun s => s.lead_id = i)
    | none => rows
  let rows : List Solution :=
    match status with
    | some s => rows.filter (fun x => x.status = s)
    | none => rows
  rows.reverse

/-- The inner join `outreach_log JOIN lead_bucket ON ol.lead_id = lb.id`
enriched with the lead's company name; a lead-less outreach row joins nothing. -/
def outreach_join (st : Store) : List (OutreachRow × String) :=
  st.outreach.flatMap (fun r =>
    (st.leads.filter (fun l => l.id = r.lead_id)).map (fun l => (r, l.company_name)))

/-- `DatabaseManager.get_outreach_history`: the join, an optional lead filter,
`ORDER BY ol.sent_at DESC LIMIT ?`. -/
def get_outreach_history (st : Store) (lead_id : Option Nat) (lim : Nat) :
    List (OutreachRow × String) :=
  let rows := outreach_join st
  let rows : List (OutreachRow × String) :=
    match lead_id with
    | some i => rows.filter (fun p => p.1.lead_id = i)
    | none => rows
  rows.reverse.take lim

/-- `DatabaseManager.get_pending_responses`: the same join restricted to
`ol.response IS NULL`, `ORDER BY ol.sent_at DESC`. -/
def get_pending_responses (st : Store) : List (OutreachRow × String) :=
  ((st.outreach.filter (fun r => r.response.isNone)).flatMap (fun r =>
    (st.leads.filter (fun l => l.id = r.lead_id)).map (fun l =>
      (r, l.company_name)))).reverse

/-- The dict returned by `get_campaign_stats`; `responses` is `Option Nat`
because `SUM(CASE ...)` over an empty `outreach_log` is SQL NULL. -/
structure CampaignStats where
  total_leads : Nat
  solution_stats : List (String × Nat)
  total_outreach : Nat
  responses : Option Nat
deriving DecidableEq

/-- Number of solutions currently carrying a given status. -/
def count_status (st : Store) (s : String) : Nat :=
  (st.solutions.filter (fun x => x.status = s)).length

/-- `DatabaseManager.get_campaign_stats`: `COUNT(*)` over `lead_bucket`; the
`GROUP BY status` dict, one key per status value present; `COUNT(*)` and
`SUM(CASE WHEN response IS NOT NULL THEN 1 ELSE 0 END)` over `outreach_log`,
the SUM being NULL when the table is empty. -/
def get_campaign_stats (st : Store) : CampaignStats :=
  { total_leads := st.leads.length
  , solution_stats :=
      ((st.solutions.map (fun x => x.status)).dedup).map (fun s => (s, count_status st s))
  , total_outreach := st.outreach.length
  , responses :=
      if st.outreach.isEmpty then none
      else some ((st.outreach.filter (fun r => r.response.isSome)).length) }

/-- `DatabaseManager.export_campaign_data`: first client row (if any) plus the
standard reads at their export limits. -/
structure ExportData where
  client_info : Option Client
  industry_data : Except String (List OutRow)
  leads : List (Lead × Option String)
  solutions : List Solution
  outreach_history : List (OutreachRow × String)
  campaign_stats : CampaignStats

/-- Build the export snapshot. -/
def export_campaign_data (st : Store) : ExportData :=
  { client_info := st.clients.head?
  , industry_data := get_industry_data st 1000 []
  , leads := get_leads st none 1000
  , solutions := get_solutions st none none
  , outreach_history := get_outreach_history st none 1000
  , campaign_stats := get_campaign_stats st }

/-- The external collaborators of `IndustryCrawler`, abstracted as the spec
directs: `fetch` is `_get_page_content` (all its failures are caught inside and
become `None`); `page_title` and `to_markdown` are the BeautifulSoup title
extraction and the strip/select/markdownify composite; `stamp` renders
`datetime.now().isoformat()` at a given clock tick. -/
structure Collab where
  fetch : String → Option String
  page_title : String → Option String
  to_markdown : String → String
  stamp : Nat → String

/-- The hard-coded pain-point placeholder of `crawl_industry_data`. -/
def pain_points_stub : String := "TODO: Extract pain points using LLM"

/-- One element of the list returned by `crawl_industry_data`. -/
structure CrawlResult where
  id : Nat
  source : String
  title : Option String
  content : String
  pain_points : String
  tags : Option (List String)
deriving DecidableEq

/-- Whether `_get_page_content(url)` yields a truthy document: some content that
is not the (falsy) empty string; `if not content: continue` skips the rest. -/
def fetched_ok (c : Collab) (u : String) : Bool :=
  match c.fetch u with
  | some h => !h.isEmpty
  | none => false

/-- `IndustryCrawler.crawl_industry_data`: iterate the URL list; skip a URL whose
fetch produced nothing; otherwise extract title, normalize to markdown, insert
via `add_industry_data` with the stub pain points and the caller's tags, and
append the outcome dict whose content field is truncated to 200 characters with
an ellipsis suffix. -/
def crawl_industry_data (c : Collab) (tags : Option (List String)) :
    List String → Nat → Store → List CrawlResult × Store
  | [], _, st => ([], st)
  | u :: rest, now, st =>
    match c.fetch u with
    | none => crawl_industry_data c tags rest now st
    | some html =>
      if html.isEmpty then crawl_industry_data c tags rest now st
      else
        let title := c.page_title html
        let content := c.to_markdown html
        let ins := add_industry_data now u content pain_points_stub title tags
          (some (c.stamp now)) st
        let rec_ := crawl_industry_data c tags rest (now + 1) ins.2
        ({ id := ins.1, source := u, title := title
         , content := content.take 200 ++ "...", pain_points := pain_points_stub
         , tags := tags } :: rec_.1, rec_.2)

/-- `DatabaseManager._get_db_path` without the machine-dependent module-directory
component: the per-tenant file `client_dbs/<client_id>.db`. -/
def get_db_path (client_id : String) : String :=
  "client_dbs/" ++ client_id ++ ".db"

/-- The filesystem of database files: one `Store` per path, keyed by the path
string `_get_db_path` produces. -/
def Global := String → Store

/-- Every write operation of the store surface, with its arguments. -/
inductive WriteOp where
  | createClient (now : Nat) (handle email industry location params : String)
  | addIndustry (now : Nat) (source content pain_points : String)
      (title : Option String) (tags : Option (List String)) (crawled_at : Option String)
  | addLead (now : Nat) (company website contact details : String)
  | addSolution (now : Nat) (lead_id : Nat) (text : String)
  | logOutreach (now : Nat) (lead_id : Nat) (msg : String)
  | updLead (lead_id : Nat) (updates : List (String × String))
  | updSolutionStatus (sid : Nat) (status : String)
  | updOutreachResponse (now : Nat) (oid : Nat) (resp : String)

/-- Apply a write operation to one tenant's store. -/
def applyWrite : WriteOp → Store → Store
  | .createClient now h e i loc p, st => (create_client now h e i loc p st).2
  | .addIndustry now src cont pp title tags cr, st =>
      (add_industry_data now src cont pp title tags cr st).2
  | .addLead now cn w ci d, st => (add_lead now cn w ci d st).2
  | .addSolution now lid text, st => (add_solution now lid text st).2
  | .logOutreach now lid msg, st => (log_outreach now lid msg st).2
  | .updLead lid ups, st => (update_lead lid ups st).2
  | .updSolutionStatus sid s, st => (update_solution_status sid s st).2
  | .updOutreachResponse now oid resp, st => (update_outreach_response now oid resp st).2

/-- Every read operation of the store surface, with its arguments. -/
inductive ReadOp where
  | getClient (handle : String)
  | getIndustry (lim : Nat) (tags : List String)
  | searchIndustry (keyword : String) (tags : List String)
  | getLeads (status : Option String) (lim : Nat)
  | getSolutions (lead_id : Option Nat) (status : Option String)
  | getOutreachHistory (lead_id : Option Nat) (lim : Nat)
  | getPending
  | getStats

/-- The union of the read operations' result types. -/
inductive ReadOut where
  | clientOut (c : Option Client)
  | industryOut (r : Except String (List OutRow))
  | leadOut (r : List (Lead × Option String))
  | solutionOut (r : List Solution)
  | outreachOut (r : List (OutreachRow × String))
  | statsOut (s : CampaignStats)

/-- Run a read operation against one tenant's store. -/
def runRead : ReadOp → Store → ReadOut
  | .getClient h, st => .clientOut (get_client h st)
  | .getIndustry lim T, st => .industryOut (get_industry_data st lim T)
  | .searchIndustry kw T, st => .industryOut (search_industry_data st kw T)
  | .getLeads s lim, st => .leadOut (get_leads st s lim)
  | .getSolutions lid s, st => .solutionOut (get_solutions st lid s)
  | .getOutreachHistory lid lim, st => .outreachOut (get_outreach_history st lid lim)
  | .getPending, st => .outreachOut (get_pending_responses st)
  | .getStats, st => .statsOut (get_campaign_stats st)

/-- A write issued through tenant `c`'s `DatabaseManager` touches exactly the
file at `_get_db_path(c)`. -/
def tenantWrite (w : WriteOp) (c : String) (g : Global) : Global :=
  fun p => if p = get_db_path c then applyWrite w (g (get_db_path c)) else g p

/-- A read issued through tenant `c`'s `DatabaseManager` opens exactly the file
at `_get_db_path(c)`. -/
def tenantRead (r : ReadOp) (c : String) (g : Global) : ReadOut :=
  runRead r (g (get_db_path c))

/-! ## Helper lemmas -/

/-- Total description of the read-side tag post-processing (the catch arm of
`load_row_tags` makes it total). -/
def row_tags_pure (b : Option TagBlob) : PyTags :=
  match b with
  | none => .null
  | some (.arr l) => .list l
  | some (.nonArray s) => .other s
  | some (.malformed _) => .null

theorem load_row_tags_ok (b : Option TagBlob) :
    load_row_tags b = .ok (row_tags_pure b) := by
  cases b with
  | none => rfl
  | some blob => cases blob <;> rfl

theorem collect_rows_ok (rows : List IndustryRow) :
    collect_rows rows = .ok (rows.map (fun r => out_row r (row_tags_pure r.tags))) := by
  induction rows with
  | nil => rfl
  | cons r rs ih => simp [collect_rows, load_row_tags_ok, ih]

theorem map_preserve {α : Type} (f : α → α) (l : List α) (h : ∀ a ∈ l, f a = a) :
    l.map f = l := by
  induction l with
  | nil => rfl
  | cons a t ih =>
    simp only [List.map_cons, h a (by simp)]
    exact congrArg _ (ih (fun x hx => h x (by simp [hx])))

theorem get_db_path_injective {a b : String} (h : get_db_path a = get_db_path b) :
    a = b := by
  unfold get_db_path at h
  have h2 := congrArg String.data h
  simp only [String.data_append] at h2
  have h3 := (List.append_left_inj _).mp h2
  have h4 := (List.append_right_inj _).mp h3
  exact congrArg String.mk h4

/-! ## Claim theorems -/

/-- Claim C1: tenant isolation — a write performed through tenant A's store
(any store write operation) is never visible through any read operation of
tenant B's store, for distinct tenant identifiers A ≠ B. -/
theorem claim_C1 (w : WriteOp) (r : ReadOp) (A B : String) (g : Global)
    (hAB : A ≠ B) : tenantRead r B (tenantWrite w A g) = tenantRead r B g := by
  have hp : get_db_path B ≠ get_db_path A :=
    fun hpath => hAB (get_db_path_injective hpath).symm
  unfold tenantRead tenantWrite
  rw [if_neg hp]

theorem claim_C1_witness :
    tenantRead ReadOp.getPending "bob"
        (tenantWrite (WriteOp.addLead 0 "acme" "w" "ci" "d") "alice"
          (fun _ => emptyStore)) =
      tenantRead ReadOp.getPending "bob" (fun _ => emptyStore) :=
  claim_C1 (WriteOp.addLead 0 "acme" "w" "ci" "d") ReadOp.getPending
    "alice" "bob" (fun _ => emptyStore) (by decide)

/-- Claim C3: malformed tag data is recovered, never surfaced — for a stored tag
collection that is absent/NULL, unparsable, or valid JSON that is not an array,
the tag predicate answers `false` for every candidate, and the query and search
operations always return normally (`Except.ok`) on every store state. -/
theorem claim_C3 :
    (∀ v, json_array_contains none v = false) ∧
    (∀ s v, json_array_contains (some (TagBlob.malformed s)) v = false) ∧
    (∀ s v, json_array_contains (some (TagBlob.nonArray s)) v = false) ∧
    (∀ st lim T, ∃ rs, get_industry_data st lim T = Except.ok rs) ∧
    (∀ st keyword T, ∃ rs, search_industry_data st keyword T = Except.ok rs) :=
  ⟨fun _ => rfl, fun _ _ => rfl, fun _ _ => rfl,
   fun st lim T => ⟨_, collect_rows_ok (select_industry st lim T)⟩,
   fun st keyword T => ⟨_, collect_rows_ok (select_search st keyword T)⟩⟩

/-- Claim C4: `create_client` is exactly-once — with a fresh tenant id the first
call returns `true` and `get_client` then yields the inserted profile; any call
on a store that already holds that tenant id (in particular the immediate second
call) returns `false`, leaves the store untouched, and `get_client` still
returns the first profile. -/
theorem claim_C4 (st : Store) (now1 now2 : Nat)
    (h e i loc p e2 i2 loc2 p2 : String)
    (hfresh : ∀ c ∈ st.clients, c.telegram_handle ≠ h) :
    (create_client now1 h e i loc p st).1 = true ∧
    get_client h (create_client now1 h e i loc p st).2 =
      some { telegram_handle := h, email := e, industry := i, location := loc
           , campaign_parameters := p, created_at := now1 } ∧
    (∀ st2 : Store, (∃ c ∈ st2.clients, c.telegram_handle = h) →
      ∀ now3 e3 i3 loc3 p3, create_client now3 h e3 i3 loc3 p3 st2 = (false, st2)) ∧
    (create_client now2 h e2 i2 loc2 p2 (create_client now1 h e i loc p st).2).1 = false ∧
    (create_client now2 h e2 i2 loc2 p2 (create_client now1 h e i loc p st).2).2 =
      (create_client now1 h e i loc p st).2 ∧
    get_client h (create_client now2 h e2 i2 loc2 p2 (create_client now1 h e i loc p st).2).2 =
      some { telegram_handle := h, email := e, industry := i, location := loc
           , campaign_parameters := p, created_at := now1 } := by
  have hany : ¬ (st.clients.any (fun c => c.telegram_handle = h) = true) := by
    simp only [List.any_eq_true, decide_eq_true_eq]
    rintro ⟨c, hc, hch⟩
    exact hfresh c hc hch
  have hfirst : create_client now1 h e i loc p st =
      (true, { st with clients := st.clients ++
        [{ telegram_handle := h, email := e, industry := i, location := loc
         , campaign_parameters := p, created_at := now1 }] }) := by
    simp [create_client, hany]
  have hget : get_client h (create_client now1 h e i loc p st).2 =
      some { telegram_handle := h, email := e, industry := i, location := loc
           , campaign_parameters := p, created_at := now1 } := by
    rw [hfirst]
    simp only [get_client, List.find?_append]
    have hnone : st.clients.find? (fun c => c.telegram_handle = h) = none := by
      rw [List.find?_eq_none]
      intro c hc
      simpa using hfresh c hc
    rw [hnone]
    simp
  have hdup : ∀ st2 : Store, (∃ c ∈ st2.clients, c.telegram_handle = h) →
      ∀ now3 e3 i3 loc3 p3, create_client now3 h e3 i3 loc3 p3 st2 = (false, st2) := by
    rintro st2 ⟨c, hc, hch⟩ now3 e3 i3 loc3 p3
    have : st2.clients.any (fun c => c.telegram_handle = h) = true := by
      simp only [List.any_eq_true, decide_eq_true_eq]
      exact ⟨c, hc, hch⟩
    simp [create_client, this]
  have hmem : ∃ c ∈ (create_client now1 h e i loc p st).2.clients,
      c.telegram_handle = h := by
    rw [hfirst]
    refine ⟨{ telegram_handle := h, email := e, industry := i, location := loc
            , campaign_parameters := p, created_at := now1 }, ?_, rfl⟩
    simp
  have hsecond := hdup _ hmem now2 e2 i2 loc2 p2
  refine ⟨by rw [hfirst], hget, hdup, by rw [hsecond], by rw [hsecond], ?_⟩
  rw [hsecond]
  exact hget

theorem claim_C4_witness :
    (create_client 0 "alice" "e" "i" "l" "p" emptyStore).1 = true ∧
    get_client "alice" (create_client 0 "alice" "e" "i" "l" "p" emptyStore).2 =
      some { telegram_handle := "alice", email := "e", industry := "i", location := "l"
           , campaign_parameters := "p", created_at := 0 } ∧
    (∀ st2 : Store, (∃ c ∈ st2.clients, c.telegram_handle = "alice") →
      ∀ now3 e3 i3 loc3 p3, create_client now3 "alice" e3 i3 loc3 p3 st2 = (false, st2)) ∧
    (create_client 1 "alice" "e2" "i2" "l2" "p2"
      (create_client 0 "alice" "e" "i" "l" "p" emptyStore).2).1 = false ∧
    (create_client 1 "alice" "e2" "i2" "l2" "p2"
      (create_client 0 "alice" "e" "i" "l" "p" emptyStore).2).2 =
      (create_client 0 "alice" "e" "i" "l" "p" emptyStore).2 ∧
    get_client "alice" (create_client 1 "alice" "e2" "i2" "l2" "p2"
      (create_client 0 "alice" "e" "i" "l" "p" emptyStore).2).2 =
      some { telegram_handle := "alice", email := "e", industry := "i", location := "l"
           , campaign_parameters := "p", created_at := 0 } :=
  claim_C4 emptyStore 0 1 "alice" "e" "i" "l" "p" "e2" "i2" "l2" "p2"
    (fun _ hc => nomatch hc)

/-- Claim C6: `update_outreach_response` sets `response` and `updated_at`
together — on a store holding an outreach record with the given id whose
`response` and `updated_at` are both NULL, the call returns `true`, afterwards
every record with that id has `response` equal to the given text and a non-null
`updated_at` (set in the same single write), and `get_pending_responses` no
longer includes any record with that id. -/
theorem claim_C6 (st : Store) (now : Nat) (oid : Nat) (text : String)
    (hex : ∃ r ∈ st.outreach, r.id = oid ∧ r.response = none ∧ r.updated_at = none) :
    (update_outreach_response now oid text st).1 = true ∧
    (∃ r ∈ (update_outreach_response now oid text st).2.outreach,
       r.id = oid ∧ r.response = some text ∧ r.updated_at = some now) ∧
    (∀ r ∈ (update_outreach_response now oid text st).2.outreach,
       r.id = oid → r.response = some text ∧ r.updated_at = some now) ∧
    (∀ pr ∈ get_pending_responses (update_outreach_response now oid text st).2,
       pr.1.id ≠ oid) := by
  have hall : ∀ r ∈ (update_outreach_response now oid text st).2.outreach,
      r.id = oid → r.response = some text ∧ r.updated_at = some now := by
    intro r hr hid
    simp only [update_outreach_response, List.mem_map] at hr
    obtain ⟨r0, _, hr0⟩ := hr
    by_cases h0 : r0.id = oid
    · rw [if_pos h0] at hr0
      subst hr0
      exact ⟨rfl, rfl⟩
    · rw [if_neg h0] at hr0
      subst hr0
      exact absurd hid h0
  refine ⟨rfl, ?_, hall, ?_⟩
  · obtain ⟨r, hr, hid, _, _⟩ := hex
    refine ⟨{ r with response := some text, updated_at := some now }, ?_, ?_, rfl, rfl⟩
    · simp only [update_outreach_response, List.mem_map]
      exact ⟨r, hr, by rw [if_pos hid]⟩
    · simpa using hid
  · intro pr hpr
    simp only [get_pending_responses, List.mem_reverse, List.mem_flatMap,
      List.mem_map, List.mem_filter] at hpr
    obtain ⟨r, ⟨hrmem, hrnone⟩, l, _, hpr'⟩ := hpr
    intro hid
    have hpr1 : pr.1 = r := by rw [← hpr']
    have := hall r hrmem (by rw [← hpr1, hid])
    rw [this.1] at hrnone
    simp at hrnone

theorem claim_C6_witness :
    (update_outreach_response 2 1 "yes"
      (log_outreach 1 1 "hello" (add_lead 0 "acme" "w" "ci" "d" emptyStore).2).2).1 = true ∧
    (∃ r ∈ (update_outreach_response 2 1 "yes"
      (log_outreach 1 1 "hello" (add_lead 0 "acme" "w" "ci" "d" emptyStore).2).2).2.outreach,
       r.id = 1 ∧ r.response = some "yes" ∧ r.updated_at = some 2) ∧
    (∀ r ∈ (update_outreach_response 2 1 "yes"
      (log_outreach 1 1 "hello" (add_lead 0 "acme" "w" "ci" "d" emptyStore).2).2).2.outreach,
       r.id = 1 → r.response = some "yes" ∧ r.updated_at = some 2) ∧
    (∀ pr ∈ get_pending_responses (update_outreach_response 2 1 "yes"
      (log_outreach 1 1 "hello" (add_lead 0 "acme" "w" "ci" "d" emptyStore).2).2).2,
       pr.1.id ≠ 1) :=
  claim_C6 (log_outreach 1 1 "hello" (add_lead 0 "acme" "w" "ci" "d" emptyStore).2).2
    2 1 "yes" (by decide)

/-- Claim C10: the update operations do not check row existence — on a store with
no matching row, `update_lead` with at least one allow-listed field,
`update_solution_status` with a valid status, and `update_outreach_response`
each return `true` and leave the store completely unchanged. -/
theorem claim_C10 (st : Store) (now : Nat) (lid sid oid : Nat)
    (updates : List (String × String)) (status resp : String)
    (hupd : updates.filter (fun kv => kv.1 ∈ valid_fields) ≠ [])
    (hstat : status ∈ valid_statuses)
    (hl : ∀ l ∈ st.leads, l.id ≠ lid)
    (hs : ∀ s ∈ st.solutions, s.id ≠ sid)
    (ho : ∀ r ∈ st.outreach, r.id ≠ oid) :
    update_lead lid updates st = (true, st) ∧
    update_solution_status sid status st = (true, st) ∧
    update_outreach_response now oid resp st = (true, st) := by
  refine ⟨?_, ?_, ?_⟩
  · have hne : ¬ (updates.filter (fun kv => kv.1 ∈ valid_fields)).isEmpty = true := by
      simpa [List.isEmpty_iff] using hupd
    have hmap : st.leads.map (fun l =>
        if l.id = lid then
          (updates.filter (fun kv => kv.1 ∈ valid_fields)).foldl
            (fun acc kv => set_lead_field acc kv.1 kv.2) l
        else l) = st.leads :=
      map_preserve _ _ (fun l hmem => if_neg (hl l hmem))
    simp [update_lead, hne, hmap]
  · have hmap : st.solutions.map (fun s =>
        if s.id = sid then { s with status := status } else s) = st.solutions :=
      map_preserve _ _ (fun s hmem => if_neg (hs s hmem))
    simp [update_solution_status, not_not_intro hstat, hmap]
  · have hmap : st.outreach.map (fun r =>
        if r.id = oid then { r with response := some resp, updated_at := some now }
        else r) = st.outreach :=
      map_preserve _ _ (fun r hmem => if_neg (ho r hmem))
    simp [update_outreach_response, hmap]

theorem claim_C10_witness :
    update_lead 99 [("details", "x")] (add_lead 0 "acme" "w" "ci" "d" emptyStore).2 =
      (true, (add_lead 0 "acme" "w" "ci" "d" emptyStore).2) ∧
    update_solution_status 99 "approved" (add_lead 0 "acme" "w" "ci" "d" emptyStore).2 =
      (true, (add_lead 0 "acme" "w" "ci" "d" emptyStore).2) ∧
    update_outreach_response 5 99 "resp" (add_lead 0 "acme" "w" "ci" "d" emptyStore).2 =
      (true, (add_lead 0 "acme" "w" "ci" "d" emptyStore).2) :=
  claim_C10 (add_lead 0 "acme" "w" "ci" "d" emptyStore).2 5 99 99 99
    [("details", "x")] "approved" "resp" (by decide) (by decide)
    (by decide) (by decide) (by decide)

/-- Read one allow-listed column of a lead row by its SQL name; `none` for a
name outside the schema's updatable columns. -/
def lead_field (l : Lead) (k : String) : Option String :=
  if k = "company_name" then some l.company_name
  else if k = "website" then some l.website
  else if k = "contact_info" then some l.contact_info
  else if k = "details" then some l.details
  else none

theorem set_lead_field_id (l : Lead) (k v : String) :
    (set_lead_field l k v).id = l.id := by
  unfold set_lead_field
  split_ifs <;> rfl

theorem set_lead_field_created_at (l : Lead) (k v : String) :
    (set_lead_field l k v).created_at = l.created_at := by
  unfold set_lead_field
  split_ifs <;> rfl

theorem lead_field_set_same (l : Lead) (k v : String) (hk : k ∈ valid_fields) :
    lead_field (set_lead_field l k v) k = some v := by
  simp only [valid_fields, List.mem_cons, List.not_mem_nil, or_false] at hk
  rcases hk with rfl | rfl | rfl | rfl <;> simp [set_lead_field, lead_field]

theorem lead_field_set_other (l : Lead) (k v k' : String) (h : k' ≠ k) :
    lead_field (set_lead_field l k v) k' = lead_field l k' := by
  by_cases h1 : k = "company_name"
  · subst h1; simp [set_lead_field, lead_field, h]
  by_cases h2 : k = "website"
  · subst h2; simp [set_lead_field, lead_field, h]
  by_cases h3 : k = "contact_info"
  · subst h3; simp [set_lead_field, lead_field, h]
  by_cases h4 : k = "details"
  · subst h4; simp [set_lead_field, lead_field, h]
  simp [set_lead_field, h1, h2, h3, h4]

/-- Folding the SET clause over assignments whose keys avoid `k` leaves column
`k` unchanged. -/
theorem lead_field_foldl_not_mem :
    ∀ (uf : List (String × String)) (l : Lead) (k : String),
      k ∉ uf.map Prod.fst →
      lead_field (uf.foldl (fun acc kv => set_lead_field acc kv.1 kv.2) l) k =
        lead_field l k := by
  intro uf
  induction uf with
  | nil => intro l k _; rfl
  | cons kv rest ih =>
    intro l k h
    simp only [List.map_cons, List.mem_cons, not_or] at h
    rw [List.foldl_cons, ih _ _ h.2]
    exact lead_field_set_other _ _ _ _ h.1

/-- Folding the SET clause over duplicate-free, allow-listed assignments sets
column `k` to its assigned value. -/
theorem lead_field_foldl_mem :
    ∀ (uf : List (String × String)) (l : Lead) (k v : String),
      (uf.map Prod.fst).Nodup →
      (∀ kv ∈ uf, kv.1 ∈ valid_fields) →
      (k, v) ∈ uf →
      lead_field (uf.foldl (fun acc kv => set_lead_field acc kv.1 kv.2) l) k =
        some v := by
  intro uf
  induction uf with
  | nil => intro l k v _ _ hmem; cases hmem
  | cons kv rest ih =>
    intro l k v hnd hvf hmem
    rw [List.foldl_cons]
    rcases List.mem_cons.mp hmem with heq | htail
    · have hk1 : kv.1 = k := by rw [← heq]
      have hnotin : k ∉ rest.map Prod.fst := by
        simp only [List.map_cons, List.nodup_cons] at hnd
        rw [← hk1]
        exact hnd.1
      rw [lead_field_foldl_not_mem _ _ _ hnotin, ← heq]
      exact lead_field_set_same _ _ _
        (by simpa [← heq] using hvf kv (List.mem_cons_self _ _))
    · simp only [List.map_cons, List.nodup_cons] at hnd
      exact ih _ _ _ hnd.2 (fun x hx => hvf x (List.mem_cons_of_mem _ hx)) htail

theorem foldl_set_lead_id (uf : List (String × String)) (l : Lead) :
    (uf.foldl (fun acc kv => set_lead_field acc kv.1 kv.2) l).id = l.id := by
  induction uf generalizing l with
  | nil => rfl
  | cons kv rest ih => rw [List.foldl_cons, ih, set_lead_field_id]

theorem foldl_set_lead_created_at (uf : List (String × String)) (l : Lead) :
    (uf.foldl (fun acc kv => set_lead_field acc kv.1 kv.2) l).created_at =
      l.created_at := by
  induction uf generalizing l with
  | nil => rfl
  | cons kv rest ih => rw [List.foldl_cons, ih, set_lead_field_created_at]

/-- Claim C5: `update_lead` allow-list and frame — field names outside
`{company_name, website, contact_info, details}` are silently dropped; if no
recognized field remains the call returns `false` and the store is unchanged;
otherwise it returns `true`, sets exactly the recognized fields of the matching
lead to the given values, leaves its other columns unchanged, and leaves every
other lead and every other table unchanged. -/
theorem claim_C5 (st : Store) (lead_id : Nat) (updates : List (String × String))
    (hkeys : (updates.map Prod.fst).Nodup)
    (_hex : ∃ l ∈ st.leads, l.id = lead_id) :
    (updates.filter (fun kv => kv.1 ∈ valid_fields) = [] →
       update_lead lead_id updates st = (false, st)) ∧
    (updates.filter (fun kv => kv.1 ∈ valid_fields) ≠ [] →
       (update_lead lead_id updates st).1 = true ∧
       (update_lead lead_id updates st).2.clients = st.clients ∧
       (update_lead lead_id updates st).2.industry = st.industry ∧
       (update_lead lead_id updates st).2.solutions = st.solutions ∧
       (update_lead lead_id updates st).2.outreach = st.outreach ∧
       (update_lead lead_id updates st).2.leads.length = st.leads.length ∧
       (∀ i : Nat, ∀ hi : i < st.leads.length,
          ∀ hi2 : i < (update_lead lead_id updates st).2.leads.length,
         ((st.leads.get ⟨i, hi⟩).id ≠ lead_id →
            (update_lead lead_id updates st).2.leads.get ⟨i, hi2⟩ = st.leads.get ⟨i, hi⟩) ∧
         ((st.leads.get ⟨i, hi⟩).id = lead_id →
            ((update_lead lead_id updates st).2.leads.get ⟨i, hi2⟩).id =
              (st.leads.get ⟨i, hi⟩).id ∧
            ((update_lead lead_id updates st).2.leads.get ⟨i, hi2⟩).created_at =
              (st.leads.get ⟨i, hi⟩).created_at ∧
            (∀ k v, (k, v) ∈ updates.filter (fun kv => kv.1 ∈ valid_fields) →
               lead_field ((update_lead lead_id updates st).2.leads.get ⟨i, hi2⟩) k = some v) ∧
            (∀ k, k ∉ (updates.filter (fun kv => kv.1 ∈ valid_fields)).map Prod.fst →
               lead_field ((update_lead lead_id updates st).2.leads.get ⟨i, hi2⟩) k =
                 lead_field (st.leads.get ⟨i, hi⟩) k)))) := by
  constructor
  · intro hempty
    have hemp : (updates.filter (fun kv => kv.1 ∈ valid_fields)).isEmpty = true := by
      simp [List.isEmpty_iff, hempty]
    simp [update_lead, hemp]
  · intro hne
    have hnee : ¬ (updates.filter (fun kv => kv.1 ∈ valid_fields)).isEmpty = true := by
      simpa [List.isEmpty_iff] using hne
    have hupdeq : update_lead lead_id updates st =
        (true, { st with leads := st.leads.map (fun l =>
          if l.id = lead_id then
            (updates.filter (fun kv => kv.1 ∈ valid_fields)).foldl
              (fun acc kv => set_lead_field acc kv.1 kv.2) l
          else l) }) := by
      simp [update_lead, hnee]
    rw [hupdeq]
    refine ⟨rfl, rfl, rfl, rfl, rfl, by simp, ?_⟩
    intro i hi hi2
    have hg : (st.leads.map (fun l =>
        if l.id = lead_id then
          (updates.filter (fun kv => kv.1 ∈ valid_fields)).foldl
            (fun acc kv => set_lead_field acc kv.1 kv.2) l
        else l)).get ⟨i, hi2⟩ =
        (fun l =>
          if l.id = lead_id then
            (updates.filter (fun kv => kv.1 ∈ valid_fields)).foldl
              (fun acc kv => set_lead_field acc kv.1 kv.2) l
          else l) (st.leads.get ⟨i, hi⟩) := by
      simp
    constructor
    · intro hneid
      rw [hg]
      simp only [if_neg hneid]
    · intro heqid
      rw [hg]
      simp only [if_pos heqid]
      have hndf : ((updates.filter (fun kv => kv.1 ∈ valid_fields)).map Prod.fst).Nodup :=
        hkeys.sublist ((List.filter_sublist updates).map Prod.fst)
      have hvff : ∀ kv ∈ updates.filter (fun kv => kv.1 ∈ valid_fields),
          kv.1 ∈ valid_fields := by
        intro kv hkv
        simpa using (List.mem_filter.mp hkv).2
      exact ⟨foldl_set_lead_id _ _, foldl_set_lead_created_at _ _,
        fun k v hkv => lead_field_foldl_mem _ _ _ _ hndf hvff hkv,
        fun k hk => lead_field_foldl_not_mem _ _ _ hk⟩

/-- Concrete store for the C5 witness: one lead with id 1. -/
def stW5 : Store := (add_lead 0 "acme" "w" "ci" "d" emptyStore).2

theorem claim_C5_witness :
    ([("details", "x"), ("bogus", "y")].filter (fun kv => kv.1 ∈ valid_fields) = [] →
       update_lead 1 [("details", "x"), ("bogus", "y")] stW5 = (false, stW5)) ∧
    ([("details", "x"), ("bogus", "y")].filter (fun kv => kv.1 ∈ valid_fields) ≠ [] →
       (update_lead 1 [("details", "x"), ("bogus", "y")] stW5).1 = true ∧
       (update_lead 1 [("details", "x"), ("bogus", "y")] stW5).2.clients = stW5.clients ∧
       (update_lead 1 [("details", "x"), ("bogus", "y")] stW5).2.industry = stW5.industry ∧
       (update_lead 1 [("details", "x"), ("bogus", "y")] stW5).2.solutions = stW5.solutions ∧
       (update_lead 1 [("details", "x"), ("bogus", "y")] stW5).2.outreach = stW5.outreach ∧
       (update_lead 1 [("details", "x"), ("bogus", "y")] stW5).2.leads.length = stW5.leads.length ∧
       (∀ i : Nat, ∀ hi : i < stW5.leads.length,
          ∀ hi2 : i < (update_lead 1 [("details", "x"), ("bogus", "y")] stW5).2.leads.length,
         ((stW5.leads.get ⟨i, hi⟩).id ≠ 1 →
            (update_lead 1 [("details", "x"), ("bogus", "y")] stW5).2.leads.get ⟨i, hi2⟩ = stW5.leads.get ⟨i, hi⟩) ∧
         ((stW5.leads.get ⟨i, hi⟩).id = 1 →
            ((update_lead 1 [("details", "x"), ("bogus", "y")] stW5).2.leads.get ⟨i, hi2⟩).id =
              (stW5.leads.get ⟨i, hi⟩).id ∧
            ((update_lead 1 [("details", "x"), ("bogus", "y")] stW5).2.leads.get ⟨i, hi2⟩).created_at =
              (stW5.leads.get ⟨i, hi⟩).created_at ∧
            (∀ k v, (k, v) ∈ [("details", "x"), ("bogus", "y")].filter (fun kv => kv.1 ∈ valid_fields) →
               lead_field ((update_lead 1 [("details", "x"), ("bogus", "y")] stW5).2.leads.get ⟨i, hi2⟩) k = some v) ∧
            (∀ k, k ∉ ([("details", "x"), ("bogus", "y")].filter (fun kv => kv.1 ∈ valid_fields)).map Prod.fst →
               lead_field ((update_lead 1 [("details", "x"), ("bogus", "y")] stW5).2.leads.get ⟨i, hi2⟩) k =
                 lead_field (stW5.leads.get ⟨i, hi⟩) k)))) :=
  claim_C5 stW5 1 [("details", "x"), ("bogus", "y")] (by decide) (by decide)

/-- Claim C7: ingestion batch independence and order — `crawl_industry_data`
returns exactly one outcome per successfully fetched URL, in the original input
order, omitting failed URLs; the persisted industry rows added by the batch are
exactly those of the successful URLs (so a failed URL leaves no entry and does
not abort the batch), each outcome carries the id of its inserted row and a
200-character truncated content preview, and no other table is touched. -/
theorem claim_C7 (c : Collab) (tags : Option (List String)) (urls : List String)
    (now : Nat) (st : Store) :
    (crawl_industry_data c tags urls now st).1.map (fun o => o.source) =
      urls.filter (fetched_ok c) ∧
    (∃ newRows : List IndustryRow,
       (crawl_industry_data c tags urls now st).2.industry = st.industry ++ newRows ∧
       newRows.map (fun r => r.source) = urls.filter (fetched_ok c) ∧
       (crawl_industry_data c tags urls now st).1.map (fun o => o.id) =
         newRows.map (fun r => r.id)) ∧
    (∀ o ∈ (crawl_industry_data c tags urls now st).1,
       ∃ html, c.fetch o.source = some html ∧ html.isEmpty = false ∧
         o.content = (c.to_markdown html).take 200 ++ "..." ∧
         o.title = c.page_title html ∧
         o.pain_points = pain_points_stub ∧ o.tags = tags) ∧
    (crawl_industry_data c tags urls now st).2.clients = st.clients ∧
    (crawl_industry_data c tags urls now st).2.leads = st.leads ∧
    (crawl_industry_data c tags urls now st).2.solutions = st.solutions ∧
    (crawl_industry_data c tags urls now st).2.outreach = st.outreach := by
  induction urls generalizing now st with
  | nil =>
    refine ⟨rfl, ⟨[], by simp [crawl_industry_data], rfl, rfl⟩, ?_, rfl, rfl, rfl, rfl⟩
    intro o ho
    simp [crawl_industry_data] at ho
  | cons u rest ih =>
    cases hfu : c.fetch u with
    | none =>
      have hok : fetched_ok c u = false := by simp [fetched_ok, hfu]
      simp only [crawl_industry_data, hfu, List.filter_cons, hok]
      simpa using ih now st
    | some html =>
      by_cases hemp : html.isEmpty
      · have hok : fetched_ok c u = false := by simp [fetched_ok, hfu, hemp]
        simp only [crawl_industry_data, hfu, if_pos hemp, List.filter_cons, hok]
        simpa using ih now st
      · have hok : fetched_ok c u = true := by simp [fetched_ok, hfu, hemp]
        obtain ⟨h1, ⟨nr, h2a, h2b, h2c⟩, h3, h4, h5, h6, h7⟩ :=
          ih (now + 1) (add_industry_data now u (c.to_markdown html)
            pain_points_stub (c.page_title html) tags (some (c.stamp now)) st).2
        simp only [crawl_industry_data, hfu, if_neg hemp, List.filter_cons, hok,
          if_pos trivial, if_true]
        refine ⟨?_, ?_, ?_, ?_, ?_, ?_, ?_⟩
        · simpa using h1
        · refine ⟨{ id := st.next_industry_id, source := u
                  , title := c.page_title html, content := c.to_markdown html
                  , pain_points := pain_points_stub, tags := tags_blob tags
                  , crawled_at := some (c.stamp now), created_at := now } :: nr,
            ?_, ?_, ?_⟩
          · rw [h2a]
            simp [add_industry_data]
          · simpa using h2b
          · simpa [add_industry_data] using h2c
        · intro o ho
          rcases List.mem_cons.mp ho with heq | htail
          · subst heq
            exact ⟨html, hfu, by simpa using hemp, rfl, rfl, rfl, rfl⟩
          · exact h3 o htail
        · rw [h4]; simp [add_industry_data]
        · rw [h5]; simp [add_industry_data]
        · rw [h6]; simp [add_industry_data]
        · rw [h7]; simp [add_industry_data]

/-- Concrete store for the C8 counterexample: one entry stored with the
duplicated tag list. -/
def stW8 : Store :=
  (add_industry_data 0 "s" "c" "p" none (some ["a", "a"]) none emptyStore).2

/-- Counterexample to claim C8 as stated: an entry added with tag list
`["a", "a"]` reads back with tags `["a", "a"]` — duplicates are preserved
verbatim, not collapsed. -/
theorem claim_C8_counterexample :
    get_industry_data stW8 10 [] =
      Except.ok [{ id := 1, source := "s", title := none, content := "c"
                 , pain_points := "p", tags := PyTags.list ["a", "a"]
                 , crawled_at := none, created_at := 0 }] ∧
    ¬ (["a", "a"] : List String).Nodup := by
  exact ⟨rfl, by decide⟩

/-- Claim C8 (amended): an entry added with a present non-empty tag list stores
and reads back that list verbatim — order and duplicates preserved, not
collapsed — while tag membership via the tag predicate depends only on the set
of stored tags, so matching is unaffected by order or duplication. -/
theorem claim_C8 (l : List String) (hl : l ≠ [])
    (now : Nat) (source content pain_points : String) (title : Option String)
    (crawled_at : Option String) (st : Store) :
    (∃ row ∈ (add_industry_data now source content pain_points title (some l)
        crawled_at st).2.industry,
       row.id = (add_industry_data now source content pain_points title (some l)
         crawled_at st).1 ∧
       row.tags = some (TagBlob.arr l)) ∧
    load_row_tags (some (TagBlob.arr l)) = Except.ok (PyTags.list l) ∧
    (∀ v, json_array_contains (some (TagBlob.arr l)) v = decide (v ∈ l)) ∧
    (∀ l' : List String, (∀ x, x ∈ l' ↔ x ∈ l) →
      ∀ v, json_array_contains (some (TagBlob.arr l')) v =
        json_array_contains (some (TagBlob.arr l)) v) := by
  have hne : l.isEmpty = false := by
    cases l with
    | nil => exact absurd rfl hl
    | cons a t => rfl
  refine ⟨?_, rfl, fun v => rfl, ?_⟩
  · refine ⟨{ id := st.next_industry_id, source := source, title := title
            , content := content, pain_points := pain_points
            , tags := tags_blob (some l), crawled_at := crawled_at
            , created_at := now }, by simp [add_industry_data], rfl, ?_⟩
    simp [tags_blob, hne]
  · intro l' hiff v
    simp only [json_array_contains, json_loads]
    exact decide_eq_decide.mpr (hiff v)

theorem claim_C8_witness :
    (∃ row ∈ (add_industry_data 0 "s" "c" "p" none (some ["a", "a"])
        none emptyStore).2.industry,
       row.id = (add_industry_data 0 "s" "c" "p" none (some ["a", "a"])
         none emptyStore).1 ∧
       row.tags = some (TagBlob.arr ["a", "a"])) ∧
    load_row_tags (some (TagBlob.arr ["a", "a"])) =
      Except.ok (PyTags.list ["a", "a"]) ∧
    (∀ v, json_array_contains (some (TagBlob.arr ["a", "a"])) v =
      decide (v ∈ ["a", "a"])) ∧
    (∀ l' : List String, (∀ x, x ∈ l' ↔ x ∈ ["a", "a"]) →
      ∀ v, json_array_contains (some (TagBlob.arr l')) v =
        json_array_contains (some (TagBlob.arr ["a", "a"])) v) :=
  claim_C8 ["a", "a"] (by decide) 0 "s" "c" "p" none none emptyStore

/-- Looking up a key in an association list built by pairing each key with a
function of itself. -/
theorem lookup_map_pair (f : String → Nat) :
    ∀ (keys : List String) (k : String),
      (keys.map (fun s => (s, f s))).lookup k =
        if k ∈ keys then some (f k) else none := by
  intro keys k
  induction keys with
  | nil => simp [List.lookup]
  | cons a t ih =>
    by_cases hak : k = a
    · subst hak
      simp [List.lookup]
    · simp [List.lookup, beq_eq_false_iff_ne.mpr hak, ih, hak]

/-- Concrete store for the C9 scenario: 3 leads, 2 solutions on lead 1 with the
second moved to `approved`, 1 outreach on lead 1 with a response. -/
def stW9 : Store :=
  (update_outreach_response 7 1 "reply"
    (log_outreach 6 1 "hello"
      (update_solution_status 2 "approved"
        (add_solution 5 1 "sol2"
          (add_solution 4 1 "sol1"
            (add_lead 3 "c3" "w" "ci" "d"
              (add_lead 2 "c2" "w" "ci" "d"
                (add_lead 1 "c1" "w" "ci" "d" emptyStore).2).2).2).2).2).2).2).2

/-- Counterexample to claim C9 as stated: on a store with no outreach records,
`get_campaign_stats` reports the responded count as NULL (`SUM` over the empty
set), not as the count 0. -/
theorem claim_C9_counterexample :
    (get_campaign_stats emptyStore).responses ≠
      some ((emptyStore.outreach.filter (fun r => r.response.isSome)).length) := by
  decide

/-- Claim C9 (amended): `campaign_stats` is a correct fresh aggregate — it
reports the lead count, the per-status solution counts for exactly the statuses
present, the outreach count, and the count of outreach records with a non-null
response, except that with no outreach records at all the responded count is
reported as NULL rather than 0; the 3-lead / pending+approved / 1-responded
scenario reports exactly the claimed numbers. -/
theorem claim_C9 (st : Store) :
    (get_campaign_stats st).total_leads = st.leads.length ∧
    (∀ s, (get_campaign_stats st).solution_stats.lookup s =
      if 0 < count_status st s then some (count_status st s) else none) ∧
    (get_campaign_stats st).total_outreach = st.outreach.length ∧
    (get_campaign_stats st).responses =
      (if st.outreach.isEmpty then none
       else some ((st.outreach.filter (fun r => r.response.isSome)).length)) ∧
    (get_campaign_stats stW9).total_leads = 3 ∧
    (get_campaign_stats stW9).solution_stats.lookup "pending" = some 1 ∧
    (get_campaign_stats stW9).solution_stats.lookup "approved" = some 1 ∧
    (get_campaign_stats stW9).total_outreach = 1 ∧
    (get_campaign_stats stW9).responses = some 1 := by
  refine ⟨rfl, ?_, rfl, rfl, by decide, by decide, by decide, by decide, by decide⟩
  intro s
  have hchar : s ∈ (st.solutions.map (fun x => x.status)).dedup ↔
      0 < count_status st s := by
    rw [List.mem_dedup, List.mem_map]
    unfold count_status
    rw [List.length_pos]
    constructor
    · rintro ⟨x, hx, hxs⟩
      intro hempty
      have : x ∈ st.solutions.filter (fun y => y.status = s) := by
        rw [List.mem_filter]
        exact ⟨hx, by simp [hxs]⟩
      rw [hempty] at this
      cases this
    · intro hne
      obtain ⟨x, hx⟩ := List.exists_mem_of_ne_nil _ hne
      rw [List.mem_filter] at hx
      exact ⟨x, hx.1, by simpa using hx.2⟩
  unfold get_campaign_stats
  rw [lookup_map_pair]
  by_cases hmem : s ∈ (st.solutions.map (fun x => x.status)).dedup
  · rw [if_pos hmem, if_pos (hchar.mp hmem)]
  · rw [if_neg hmem, if_neg (fun hpos => hmem (hchar.mpr hpos))]

/-- The tag set an entry effectively carries for matching: the parsed string
array, or the empty set for NULL, non-array, or unparsable collections. -/
def row_tag_set : Option TagBlob → List String
  | some (.arr l) => l
  | _ => []

theorem json_contains_iff (b : Option TagBlob) (t : String) :
    json_array_contains b t = true ↔ t ∈ row_tag_set b := by
  cases b with
  | none => simp [json_array_contains, row_tag_set]
  | some blob =>
    cases blob <;> simp [json_array_contains, json_loads, row_tag_set]

/-- The generated OR-clause holds exactly when the entry's tag set intersects
the requested tag set. -/
theorem tag_cond_iff (T : List String) (r : IndustryRow) :
    tag_filter_cond T r = true ↔ ∃ t ∈ T, t ∈ row_tag_set r.tags := by
  simp [tag_filter_cond, List.any_eq_true, json_contains_iff]

theorem eq_of_mem_of_nodup_ids {l : List IndustryRow}
    (hnd : (l.map (fun r => r.id)).Nodup)
    {x e : IndustryRow} (hx : x ∈ l) (he : e ∈ l) (hid : x.id = e.id) : x = e :=
  List.inj_on_of_nodup_map hnd hx he hid

/-- Newest-first rendering of a take-after-reverse selection whose source list
has strictly increasing timestamps. -/
theorem pairwise_take_reverse (lim : Nat) (X : List IndustryRow)
    (hp : (X.map (fun r => r.created_at)).Pairwise (· < ·)) :
    (((X.reverse.take lim)).map (fun r => r.created_at)).Pairwise (· > ·) := by
  have h1 : ((X.reverse.take lim)).map (fun r => r.created_at) =
      ((X.map (fun r => r.created_at)).reverse).take lim := by
    rw [← List.map_reverse, ← List.map_take]
  rw [h1]
  have h2 : ((X.map (fun r => r.created_at)).reverse).Pairwise (· > ·) := by
    rw [List.pairwise_reverse]
    exact hp
  exact h2.sublist (List.take_sublist _ _)

/-- Claim C2: tag-filtered retrieval — `get_industry_data` returns at most
`limit` rows, newest-first by `created_at`; with a non-empty requested tag list
every returned entry's stored tag set intersects the requested set (OR across
the requested tags), and whenever the matching entries fit within the limit an
entry is returned exactly when its tag set intersects the requested set; with
an empty or absent tag list no tag filter is applied. Hypotheses: timestamps
strictly increase along insertion order and row ids are unique, the invariants
the store's clock and AUTOINCREMENT maintain. -/
theorem claim_C2 (st : Store) (lim : Nat) (T : List String)
    (hMono : (st.industry.map (fun r => r.created_at)).Pairwise (· < ·))
    (hNodup : (st.industry.map (fun r => r.id)).Nodup) :
    ∃ rs, get_industry_data st lim T = Except.ok rs ∧
      rs.length ≤ lim ∧
      (rs.map (fun r => r.created_at)).Pairwise (· > ·) ∧
      (T ≠ [] →
        (∀ e ∈ st.industry, (∃ r ∈ rs, r.id = e.id) →
           ∃ t ∈ T, t ∈ row_tag_set e.tags) ∧
        ((st.industry.filter (tag_filter_cond T)).length ≤ lim →
           ∀ e ∈ st.industry,
             ((∃ r ∈ rs, r.id = e.id) ↔ ∃ t ∈ T, t ∈ row_tag_set e.tags))) ∧
      (T = [] → st.industry.length ≤ lim →
        ∀ e ∈ st.industry, ∃ r ∈ rs, r.id = e.id) := by
  refine ⟨(select_industry st lim T).map (fun r => out_row r (row_tags_pure r.tags)),
    collect_rows_ok _, ?_, ?_, ?_, ?_⟩
  · rw [List.length_map]
    unfold select_industry
    split_ifs <;> exact List.length_take_le _ _
  · have hcomp : ((select_industry st lim T).map
        (fun r => out_row r (row_tags_pure r.tags))).map (fun r => r.created_at) =
        (select_industry st lim T).map (fun r => r.created_at) := by
      rw [List.map_map]
      rfl
    rw [hcomp]
    unfold select_industry order_newest_first
    split_ifs with h
    · exact pairwise_take_reverse lim st.industry hMono
    · exact pairwise_take_reverse lim (st.industry.filter (tag_filter_cond T))
        (hMono.sublist ((List.filter_sublist _).map _))
  · intro hT
    have hTe : T.isEmpty = false := by
      cases T with
      | nil => exact absurd rfl hT
      | cons a t => rfl
    have hfw : ∀ e ∈ st.industry,
        (∃ r ∈ (select_industry st lim T).map
            (fun r => out_row r (row_tags_pure r.tags)), r.id = e.id) →
        ∃ t ∈ T, t ∈ row_tag_set e.tags := by
      rintro e he ⟨r, hr, hid⟩
      rw [List.mem_map] at hr
      obtain ⟨x, hxsel, rfl⟩ := hr
      have hxid : x.id = e.id := hid
      have hxmem : x ∈ st.industry.filter (tag_filter_cond T) := by
        have hx1 : x ∈ (order_newest_first
            (st.industry.filter (tag_filter_cond T))).take lim := by
          simpa [select_industry, hTe] using hxsel
        have hx2 := (List.take_sublist _ _).subset hx1
        simpa [order_newest_first, List.mem_reverse] using hx2
      rw [List.mem_filter] at hxmem
      have hxe : x = e := eq_of_mem_of_nodup_ids hNodup hxmem.1 he hxid
      rw [← hxe]
      exact (tag_cond_iff T x).mp hxmem.2
    refine ⟨hfw, ?_⟩
    intro hlen e he
    refine ⟨hfw e he, ?_⟩
    intro hint
    have hpe : tag_filter_cond T e = true := (tag_cond_iff T e).mpr hint
    have hef : e ∈ st.industry.filter (tag_filter_cond T) :=
      List.mem_filter.mpr ⟨he, hpe⟩
    have htake : ((st.industry.filter (tag_filter_cond T)).reverse).take lim =
        (st.industry.filter (tag_filter_cond T)).reverse := by
      apply List.take_of_length_le
      simpa using hlen
    refine ⟨out_row e (row_tags_pure e.tags), ?_, rfl⟩
    rw [List.mem_map]
    refine ⟨e, ?_, rfl⟩
    simp [select_industry, hTe, htake, order_newest_first, List.mem_reverse, hef]
  · intro hT hlen e he
    subst hT
    have htake : (st.industry.reverse).take lim = st.industry.reverse := by
      apply List.take_of_length_le
      simpa using hlen
    refine ⟨out_row e (row_tags_pure e.tags), ?_, rfl⟩
    rw [List.mem_map]
    refine ⟨e, ?_, rfl⟩
    simp [select_industry, htake, order_newest_first, List.mem_reverse, he]

/-- Concrete store for the C2 witness: two tagged entries. -/
def stW2 : Store :=
  (add_industry_data 1 "s2" "c2" "p2" none (some ["y"]) none
    (add_industry_data 0 "s1" "c1" "p1" none (some ["x"]) none emptyStore).2).2

theorem claim_C2_witness :
    ∃ rs, get_industry_data stW2 10 ["x"] = Except.ok rs ∧
      rs.length ≤ 10 ∧
      (rs.map (fun r => r.created_at)).Pairwise (· > ·) ∧
      (["x"] ≠ [] →
        (∀ e ∈ stW2.industry, (∃ r ∈ rs, r.id = e.id) →
           ∃ t ∈ ["x"], t ∈ row_tag_set e.tags) ∧
        ((stW2.industry.filter (tag_filter_cond ["x"])).length ≤ 10 →
           ∀ e ∈ stW2.industry,
             ((∃ r ∈ rs, r.id = e.id) ↔ ∃ t ∈ ["x"], t ∈ row_tag_set e.tags))) ∧
      (["x"] = [] → stW2.industry.length ≤ 10 →
        ∀ e ∈ stW2.industry, ∃ r ∈ rs, r.id = e.id) :=
  claim_C2 stW2 10 ["x"] (by decide) (by decide)
